import Mathlib

/-!
Verification of the opencode-gui client-side session/event synchronization
engine, as a shallow embedding of the TypeScript source.

The embedded code:
* the zustand store in the chat timeline module: helper merge functions
  (mergeSessions, removeSession, mergeMessageList, mergeMessageInfoList,
  mergeMessagePartList, removeMessagePartFromList, removeMessageFromList),
  the store actions (selectSession, refreshSessions, loadMessages,
  createSession, deleteSession, prompt, mergeSession, removeSessionState,
  mergeMessage, updateMessageInfo, updateMessagePart, removeMessagePart,
  removeMessage, setBusy, setLastError), and the event-subscription switch
  that folds one decoded server event into the store (handleEvent);
* the file store in the local context module (close / resetNode);
* readConfig in the opencode client service.

Modelling conventions:
* JavaScript numbers carrying timestamps are embedded as Int;
* a JS string-keyed object (Record) is an association list
  (List (String × β)): spread-update preserves the key's position and
  appends unknown keys, exactly as JS object spread does;
* a JS Set of strings is a List String with insertion-order add/delete;
* undefined is Option.none;
* Array.prototype.sort with a comparator is stable (ES2019); it is embedded
  as stableSort, an insertion sort, which is stable, and every stable sort
  of a list under the same boolean order yields the same output list;
* a rejected promise / thrown value is a JsError value and an async action
  is a function of the state and of the oracle outcome (Except) of its
  single network call.
-/

namespace OpencodeGui

/-! ### Association-list model of JS string-keyed objects -/

/-- Lookup of a key in a JS object modelled as an association list
(first binding wins, mirroring unique JS keys). -/
def lookupMap {β : Type} : List (String × β) → String → Option β
  | [], _ => none
  | (k, v) :: rest, key => if k == key then some v else lookupMap rest key

/-- JS spread-update: replace the first binding of the key in place,
or append a new binding, as JS object spread with a computed key does. -/
def insertMap {β : Type} : List (String × β) → String → β → List (String × β)
  | [], key, v => [(key, v)]
  | (k, w) :: rest, key, v =>
    if k == key then (k, v) :: rest else (k, w) :: insertMap rest key v

/-- JS delete of a key from an object. -/
def eraseMap {β : Type} (m : List (String × β)) (key : String) : List (String × β) :=
  m.filter (fun kv => !(kv.1 == key))

theorem lookupMap_insertMap_self {β : Type} (m : List (String × β)) (key : String) (v : β) :
    lookupMap (insertMap m key v) key = some v := by
  induction m with
  | nil => simp [insertMap, lookupMap]
  | cons kv rest ih =>
    obtain ⟨k, w⟩ := kv
    by_cases h : k = key
    · simp [insertMap, lookupMap, h]
    · have hb : (k == key) = false := by simp [h]
      simp [insertMap, lookupMap, hb, ih]

theorem lookupMap_insertMap_ne {β : Type} (m : List (String × β)) (key key' : String) (v : β)
    (h : key' ≠ key) : lookupMap (insertMap m key v) key' = lookupMap m key' := by
  induction m with
  | nil =>
    have hb : (key == key') = false := by simp [Ne.symm h]
    simp [insertMap, lookupMap, hb]
  | cons kv rest ih =>
    obtain ⟨k, w⟩ := kv
    by_cases hk : k = key
    · subst hk
      have hb : (k == key') = false := by simp [Ne.symm h]
      simp [insertMap, lookupMap, hb]
    · have hb : (k == key) = false := by simp [hk]
      by_cases hk' : k = key'
      · subst hk'
        simp [insertMap, lookupMap, hb, h]
      · have hb' : (k == key') = false := by simp [hk']
        simp [insertMap, lookupMap, hb, hb', ih]

theorem insertMap_lookupMap_self {β : Type} (m : List (String × β)) (key : String) (v : β)
    (h : lookupMap m key = some v) : insertMap m key v = m := by
  induction m with
  | nil => simp [lookupMap] at h
  | cons kv rest ih =>
    obtain ⟨k, w⟩ := kv
    by_cases hk : k = key
    · have hb : (k == key) = true := by simp [hk]
      simp [lookupMap, hb] at h
      simp [insertMap, hb, h]
    · have hb : (k == key) = false := by simp [hk]
      simp [lookupMap, hb] at h
      simp [insertMap, hb, ih h]

theorem lookupMap_eraseMap_self {β : Type} (m : List (String × β)) (key : String) :
    lookupMap (eraseMap m key) key = none := by
  induction m with
  | nil => simp [eraseMap, lookupMap]
  | cons kv rest ih =>
    obtain ⟨k, w⟩ := kv
    by_cases hk : k = key
    · have hb : (k == key) = true := by simp [hk]
      simpa [eraseMap, List.filter, hb] using ih
    · have hb : (k == key) = false := by simp [hk]
      simpa [eraseMap, List.filter, lookupMap, hb] using ih

theorem lookupMap_eraseMap_ne {β : Type} (m : List (String × β)) (key key' : String)
    (h : key' ≠ key) : lookupMap (eraseMap m key) key' = lookupMap m key' := by
  induction m with
  | nil => simp [eraseMap, lookupMap]
  | cons kv rest ih =>
    obtain ⟨k, w⟩ := kv
    by_cases hk : k = key
    · subst hk
      have hb' : (k == key') = false := by simp [Ne.symm h]
      simpa [eraseMap, List.filter, lookupMap, hb'] using ih
    · have hb : (k == key) = false := by simp [hk]
      by_cases hk' : k = key'
      · subst hk'
        simp [eraseMap, List.filter, lookupMap, hb]
      · have hb' : (k == key') = false := by simp [hk']
        simpa [eraseMap, List.filter, lookupMap, hb, hb'] using ih

theorem lookupMap_mem {β : Type} (m : List (String × β)) (key : String) (v : β)
    (h : lookupMap m key = some v) : (key, v) ∈ m := by
  induction m with
  | nil => simp [lookupMap] at h
  | cons kv rest ih =>
    obtain ⟨k, w⟩ := kv
    by_cases hk : k = key
    · have hb : (k == key) = true := by simp [hk]
      simp [lookupMap, hb] at h
      subst hk
      subst h
      exact List.mem_cons_self _ _
    · have hb : (k == key) = false := by simp [hk]
      simp [lookupMap, hb] at h
      exact List.mem_cons_of_mem _ (ih h)

/-! ### Stable sort model of JS Array.prototype.sort -/

/-- Insert an element into a list, after every element it is
le-greater-or-equal to: the stable insertion step. -/
def insertSorted {α : Type} (le : α → α → Bool) (x : α) : List α → List α
  | [] => [x]
  | y :: ys => if le y x then y :: insertSorted le x ys else x :: y :: ys

/-- Stable sort (insertion sort), the model of Array.prototype.sort with a
comparator: ES2019 guarantees stability, and any stable sort under the
same boolean order computes the same list. -/
def stableSort {α : Type} (le : α → α → Bool) (l : List α) : List α :=
  l.foldl (fun acc x => insertSorted le x acc) []

theorem insertSorted_perm {α : Type} (le : α → α → Bool) (x : α) (l : List α) :
    (insertSorted le x l).Perm (x :: l) := by
  induction l with
  | nil => simp [insertSorted]
  | cons y ys ih =>
    by_cases h : le y x
    · simpa [insertSorted, h] using (ih.cons y).trans (List.Perm.swap x y ys)
    · simp [insertSorted, h]

theorem stableSort_perm {α : Type} (le : α → α → Bool) (l : List α) :
    (stableSort le l).Perm l := by
  suffices h : ∀ (l acc : List α),
      (l.foldl (fun acc x => insertSorted le x acc) acc).Perm (acc ++ l) by
    simpa using h l []
  intro l
  induction l with
  | nil => intro acc; simp
  | cons x xs ih =>
    intro acc
    have h1 : (insertSorted le x acc).Perm (acc ++ [x]) := by
      simpa using (insertSorted_perm le x acc).trans
        (@List.perm_append_comm _ [x] acc)
    have h2 := ih (insertSorted le x acc)
    have h3 := h1.append_right xs
    simpa using h2.trans h3

theorem mem_insertSorted {α : Type} (le : α → α → Bool) (x : α) (l : List α) (z : α) :
    z ∈ insertSorted le x l ↔ z = x ∨ z ∈ l := by
  have h : z ∈ insertSorted le x l ↔ z ∈ x :: l := (insertSorted_perm le x l).mem_iff
  simpa using h

theorem sorted_insertSorted {α : Type} (le : α → α → Bool)
    (htr : ∀ a b c, le a b = true → le b c = true → le a c = true)
    (hto : ∀ a b, le a b = true ∨ le b a = true)
    (x : α) (l : List α) (h : l.Pairwise (fun a b => le a b = true)) :
    (insertSorted le x l).Pairwise (fun a b => le a b = true) := by
  induction l with
  | nil => simp [insertSorted]
  | cons y ys ih =>
    rcases h with _ | ⟨hy, hys⟩
    by_cases hle : le y x
    · have htail := ih hys
      simp only [insertSorted, hle, if_true]
      refine List.Pairwise.cons ?_ htail
      intro z hz
      rcases (mem_insertSorted le x ys z).mp hz with rfl | hz'
      · exact hle
      · exact hy z hz'
    · have hxy : le x y = true := by
        rcases hto x y with h' | h'
        · exact h'
        · exact absurd h' (by simpa using hle)
      simp only [insertSorted, hle, if_false]
      refine List.Pairwise.cons ?_ (List.Pairwise.cons hy hys)
      intro z hz
      rcases List.mem_cons.mp hz with rfl | hz'
      · exact hxy
      · exact htr x y z hxy (hy z hz')

theorem sorted_stableSort {α : Type} (le : α → α → Bool)
    (htr : ∀ a b c, le a b = true → le b c = true → le a c = true)
    (hto : ∀ a b, le a b = true ∨ le b a = true)
    (l : List α) : (stableSort le l).Pairwise (fun a b => le a b = true) := by
  suffices h : ∀ (l acc : List α), acc.Pairwise (fun a b => le a b = true) →
      (l.foldl (fun acc x => insertSorted le x acc) acc).Pairwise
        (fun a b => le a b = true) by
    exact h l [] (by simp)
  intro l
  induction l with
  | nil => intro acc hacc; simpa using hacc
  | cons x xs ih =>
    intro acc hacc
    exact ih _ (sorted_insertSorted le htr hto x acc hacc)

theorem insertSorted_of_le {α : Type} (le : α → α → Bool) (x : α) (l : List α)
    (h : ∀ y ∈ l, le y x = true) : insertSorted le x l = l ++ [x] := by
  induction l with
  | nil => simp [insertSorted]
  | cons y ys ih =>
    have hy : le y x = true := h y (List.mem_cons_self _ _)
    simp only [insertSorted, hy, if_true, List.cons_append, List.cons.injEq, true_and]
    exact ih (fun z hz => h z (List.mem_cons_of_mem _ hz))

theorem stableSort_of_sorted {α : Type} (le : α → α → Bool) (l : List α)
    (h : l.Pairwise (fun a b => le a b = true)) : stableSort le l = l := by
  induction l using List.reverseRecOn with
  | nil => simp [stableSort]
  | append_singleton l x ih =>
    rw [List.pairwise_append] at h
    obtain ⟨hl, _, hcross⟩ := h
    have hfold : stableSort le (l ++ [x]) = insertSorted le x (stableSort le l) := by
      simp [stableSort, List.foldl_append]
    rw [hfold, ih hl]
    exact insertSorted_of_le le x l (fun y hy => hcross y hy x (by simp))

/-! ### The findIndex / copy-and-set upsert pattern of the merge functions -/

/-- Recursive characterization of the source's upsert pattern
(findIndex; if found overwrite in place, else push at the end). -/
def replaceOrAppend {α : Type} (p : α → Bool) (a : α) : List α → List α
  | [] => [a]
  | x :: xs => if p x then a :: xs else x :: replaceOrAppend p a xs

theorem findIdx?_start_shift {α : Type} (p : α → Bool) :
    ∀ (l : List α) (i : Nat), l.findIdx? p (i + 1) = (l.findIdx? p i).map (· + 1) := by
  intro l
  induction l with
  | nil => intro i; simp [List.findIdx?]
  | cons x xs ih =>
    intro i
    by_cases h : p x
    · simp [List.findIdx?_cons, h]
    · simp only [List.findIdx?_cons, h, if_false]
      exact ih (i + 1)

theorem upsert_eq_replaceOrAppend {α : Type} (p : α → Bool) (a : α) :
    ∀ l : List α,
      (match l.findIdx? p with
        | some index => l.set index a
        | none => l ++ [a]) = replaceOrAppend p a l := by
  intro l
  induction l with
  | nil => simp [List.findIdx?, replaceOrAppend]
  | cons x xs ih =>
    by_cases h : p x
    · simp [List.findIdx?_cons, h, replaceOrAppend]
    · rw [show ((x :: xs).findIdx? p) = (xs.findIdx? p).map (· + 1) by
        simpa [List.findIdx?_cons, h] using findIdx?_start_shift p xs 0]
      cases hfi : xs.findIdx? p with
      | none =>
        simp only [hfi] at ih
        simp [replaceOrAppend, h, ← ih]
      | some j =>
        simp only [hfi] at ih
        simp [replaceOrAppend, h, ← ih, List.set_cons_succ]

theorem replaceOrAppend_perm {α : Type} (p : α → Bool) (a : α) (l : List α) :
    (replaceOrAppend p a l).Perm (a :: l.eraseP p) := by
  induction l with
  | nil => simp [replaceOrAppend]
  | cons x xs ih =>
    by_cases h : p x
    · simp [replaceOrAppend, h, List.eraseP_cons]
    · simp only [replaceOrAppend, h, if_false, List.eraseP_cons, cond_eq_if, if_false,
        Bool.false_eq_true]
      exact (ih.cons x).trans (List.Perm.swap a x (xs.eraseP p))

theorem replaceOrAppend_of_none {α : Type} (p : α → Bool) (a : α) (l : List α)
    (h : ∀ x ∈ l, p x = false) : replaceOrAppend p a l = l ++ [a] := by
  induction l with
  | nil => simp [replaceOrAppend]
  | cons x xs ih =>
    have hx := h x (List.mem_cons_self _ _)
    simp only [replaceOrAppend, hx, Bool.false_eq_true, if_false, List.cons_append,
      List.cons.injEq, true_and]
    exact ih (fun z hz => h z (List.mem_cons_of_mem _ hz))

theorem self_mem_replaceOrAppend {α : Type} (p : α → Bool) (a : α) (l : List α) :
    a ∈ replaceOrAppend p a l := by
  induction l with
  | nil => simp [replaceOrAppend]
  | cons x xs ih =>
    by_cases h : p x
    · simp [replaceOrAppend, h]
    · simp only [replaceOrAppend, h, Bool.false_eq_true, if_false]
      exact List.mem_cons_of_mem _ ih

theorem findIdx?_some_spec {α : Type} (p : α → Bool) :
    ∀ (l : List α) (j : Nat), l.findIdx? p = some j →
      ∃ a, l[j]? = some a ∧ p a = true := by
  intro l
  induction l with
  | nil => intro j h; simp [List.findIdx?] at h
  | cons x xs ih =>
    intro j h
    by_cases hx : p x
    · simp [List.findIdx?_cons, hx] at h
      exact ⟨x, by simp [← h], hx⟩
    · rw [show ((x :: xs).findIdx? p) = (xs.findIdx? p).map (· + 1) by
        simpa [List.findIdx?_cons, hx] using findIdx?_start_shift p xs 0] at h
      cases hfi : xs.findIdx? p with
      | none => simp [hfi] at h
      | some j' =>
        simp [hfi] at h
        obtain ⟨a, ha, hpa⟩ := ih j' hfi
        exact ⟨a, by simpa [← h, List.getElem?_cons_succ] using ha, hpa⟩

theorem findIdx?_isSome_of_mem {α : Type} (p : α → Bool) (l : List α) (a : α)
    (ha : a ∈ l) (hp : p a = true) : l.findIdx? p ≠ none := by
  intro hnone
  rw [List.findIdx?_eq_none_iff] at hnone
  exact absurd hp (by simp [hnone a ha])

theorem set_getElem?_self {α : Type} :
    ∀ (l : List α) (i : Nat) (a : α), l[i]? = some a → l.set i a = l := by
  intro l
  induction l with
  | nil => intro i a h; simp at h
  | cons x xs ih =>
    intro i a h
    cases i with
    | zero =>
      simp at h
      simp [List.set, h]
    | succ n =>
      simp [List.getElem?_cons_succ] at h
      simp [List.set_cons_succ, ih n a h]

/-! ### Data model (types/opencode.ts) -/

/-- Session timestamps; the declared TS type has required created/updated. -/
structure SessionTime where
  created : Int
  updated : Int
  deriving Repr, DecidableEq

/-- SessionInfo. -/
structure SessionInfo where
  id : String
  projectID : String := ""
  directory : String := ""
  parentID : Option String := none
  title : String := ""
  time : SessionTime
  deriving Repr, DecidableEq

/-- Message timestamps; created is required in both the user and the
assistant variant of the TS union, completed is assistant-only. -/
structure MessageTime where
  created : Int
  completed : Option Int := none
  deriving Repr, DecidableEq

/-- MessageInfo: the union of UserMessage and AssistantMessage collapsed to
the fields the synchronization engine reads. -/
structure MessageInfo where
  id : String
  sessionID : String
  role : String := "user"
  time : MessageTime
  deriving Repr, DecidableEq

/-- The per-part tool state machine (pending / running / completed / error);
each status replaces the whole part, never merged field-wise. -/
inductive ToolState where
  | pending
  | running (title : Option String)
  | completed (output : String) (title : String)
  | error (message : String)
  deriving Repr, DecidableEq

/-- The tagged variant payload of a message part. -/
inductive PartBody where
  | text (content : String)
  | reasoning (content : String)
  | file (url : String) (filename : Option String)
  | tool (callID : String) (name : String) (state : ToolState)
  | patch (hash : String) (files : List String)
  | snapshot (value : String)
  deriving Repr, DecidableEq

/-- MessagePart: common keys plus the tagged payload. -/
structure MessagePart where
  id : String
  messageID : String
  sessionID : String
  body : PartBody := .text ""
  deriving Repr, DecidableEq

/-- MessageWithParts. -/
structure MessageWithParts where
  info : MessageInfo
  parts : List MessagePart
  deriving Repr, DecidableEq

/-- The comparator of the session-list sort
((a, b) => b.time.updated - a.time.updated): a may precede b iff the
comparator is ≤ 0, i.e. descending by updated time. -/
def sessionLe (a b : SessionInfo) : Bool :=
  decide (b.time.updated ≤ a.time.updated)

/-- The comparator of the message-list sort
((a, b) => (a.info.time.created ?? 0) - (b.info.time.created ?? 0));
created is a required number in the TS type, so the ?? 0 fallback is the
value itself: ascending by created time. -/
def msgLe (a b : MessageWithParts) : Bool :=
  decide (a.info.time.created ≤ b.info.time.created)

/-- Code-point comparison of strings, the model of
a.id.localeCompare(b.id) <= 0 on the opaque part-id strings. -/
def charListLe : List Char → List Char → Bool
  | [], _ => true
  | _ :: _, [] => false
  | a :: as, b :: bs =>
    if a.toNat < b.toNat then true
    else if b.toNat < a.toNat then false
    else charListLe as bs

/-- The comparator of the part-list sort ((a, b) => a.id.localeCompare(b.id)). -/
def partLe (a b : MessagePart) : Bool :=
  charListLe a.id.data b.id.data

/-! ### The pure merge helpers of the store module -/

/-- mergeSessions (identical to mergeOrInsert of the provider variant):
upsert a session by id, then re-sort descending by time.updated. -/
def mergeSessions (list : List SessionInfo) (next : SessionInfo) : List SessionInfo :=
  match list.findIdx? (fun item => item.id == next.id) with
  | some index => stableSort sessionLe (list.set index next)
  | none => stableSort sessionLe (list ++ [next])

/-- removeSession: filter the session out by id. -/
def removeSession (list : List SessionInfo) (id : String) : List SessionInfo :=
  list.filter (fun item => !(item.id == id))

/-- mergeMessageList: upsert a message (info plus parts) by info.id, then
re-sort ascending by created time. -/
def mergeMessageList (list : List MessageWithParts) (next : MessageWithParts) :
    List MessageWithParts :=
  match list.findIdx? (fun item => item.info.id == next.info.id) with
  | some index => stableSort msgLe (list.set index next)
  | none => stableSort msgLe (list ++ [next])

/-- mergeMessageInfoList: replace the info of the matching message in place,
keeping its parts; no-op when the message is unknown. -/
def mergeMessageInfoList (list : List MessageWithParts) (info : MessageInfo) :
    List MessageWithParts :=
  match list.findIdx? (fun item => item.info.id == info.id) with
  | some index =>
    match list[index]? with
    | some target => list.set index { info := info, parts := target.parts }
    | none => list
  | none => list

/-- mergeMessagePartList: find the owning message by part.messageID; replace
the part with the same id, or insert it and re-sort parts by id; no-op when
the owning message is unknown. -/
def mergeMessagePartList (list : List MessageWithParts) (part : MessagePart) :
    List MessageWithParts :=
  match list.findIdx? (fun item => item.info.id == part.messageID) with
  | none => list
  | some index =>
    match list[index]? with
    | none => list
    | some target =>
      let nextParts :=
        match target.parts.findIdx? (fun item => item.id == part.id) with
        | some partIndex => target.parts.set partIndex part
        | none => stableSort partLe (target.parts ++ [part])
      list.set index { info := target.info, parts := nextParts }

/-- removeMessagePartFromList: filter the part out of the owning message's
part list; no-op when the owning message is unknown. -/
def removeMessagePartFromList (list : List MessageWithParts)
    (messageID partID : String) : List MessageWithParts :=
  match list.findIdx? (fun item => item.info.id == messageID) with
  | none => list
  | some index =>
    match list[index]? with
    | none => list
    | some target =>
      list.set index
        { info := target.info,
          parts := target.parts.filter (fun item => !(item.id == partID)) }

/-- removeMessageFromList: filter the message out by id. -/
def removeMessageFromList (list : List MessageWithParts) (messageID : String) :
    List MessageWithParts :=
  list.filter (fun item => !(item.info.id == messageID))

/-! ### JS runtime values: thrown errors and JSON -/

/-- A thrown JS value as the catch blocks discriminate it:
an Error instance, a plain string, or anything else. -/
inductive JsError where
  | jsError (message : String)
  | jsString (value : String)
  | other (repr : String)
  deriving Repr, DecidableEq

/-- error instanceof Error ? error.message : String(error), the conversion
used by the refreshSessions and loadMessages catch blocks. -/
def JsError.asString : JsError → String
  | .jsError m => m
  | .jsString v => v
  | .other r => r

/-- error instanceof Error ? error.message : typeof error === "string"
? error : "Failed to send prompt", the conversion used by the prompt catch
block. -/
def promptErrorMessage : JsError → String
  | .jsError m => m
  | .jsString v => v
  | .other _ => "Failed to send prompt"

/-- A parsed JSON value. -/
inductive Json where
  | null
  | bool (b : Bool)
  | num (n : Int)
  | str (s : String)
  | arr (items : List Json)
  | obj (fields : List (String × Json))

mutual

/-- Model of JSON.stringify restricted to parsed JSON values (numbers are
embedded as integers, string escaping elided: the engine only displays the
result, never re-parses it). -/
def Json.stringify : Json → String
  | .null => "null"
  | .bool true => "true"
  | .bool false => "false"
  | .num n => toString n
  | .str s => "\"" ++ s ++ "\""
  | .arr items => "[" ++ Json.stringifyItems items ++ "]"
  | .obj fields => "\x7b" ++ Json.stringifyFields fields ++ "\x7d"

/-- Comma-joined stringification of array items. -/
def Json.stringifyItems : List Json → String
  | [] => ""
  | [x] => Json.stringify x
  | x :: xs => Json.stringify x ++ "," ++ Json.stringifyItems xs

/-- Comma-joined stringification of object fields. -/
def Json.stringifyFields : List (String × Json) → String
  | [] => ""
  | [(k, v)] => "\"" ++ k ++ "\":" ++ Json.stringify v
  | (k, v) :: fs => "\"" ++ k ++ "\":" ++ Json.stringify v ++ "," ++ Json.stringifyFields fs

end

/-- The error payload of a session.error event
(name/message required, data an optional string-keyed record). -/
structure SessionErrorPayload where
  name : String
  message : String
  data : Option (List (String × Json)) := none

/-- The session.error message extraction of the event switch:
error?.data?.message ?? error?.message, then the raw value if it is a
string, JSON.stringify of it if non-null, "Session error" otherwise. -/
def sessionErrorText (error : Option SessionErrorPayload) : String :=
  let rawMessage : Option Json :=
    match error with
    | none => none
    | some e =>
      match e.data.bind (fun d => lookupMap d "message") with
      | some Json.null => some (Json.str e.message)
      | some j => some j
      | none => some (Json.str e.message)
  match rawMessage with
  | some (Json.str s) => s
  | some j => Json.stringify j
  | none => "Session error"

/-! ### Server events (the decoded SSE envelopes) -/

/-- ServerEvent: the discriminated union delivered by the subscription. -/
inductive ServerEvent where
  | serverConnected
  | sessionUpdated (info : SessionInfo)
  | sessionDeleted (info : SessionInfo)
  | sessionIdle (sessionID : String)
  | sessionError (sessionID : Option String) (error : Option SessionErrorPayload)
  | messageCreated (info : MessageInfo) (parts : List MessagePart)
  | messageUpdated (info : MessageInfo)
  | messageRemoved (sessionID messageID : String)
  | messagePartUpdated (part : MessagePart)
  | messagePartRemoved (sessionID messageID partID : String)

/-! ### The zustand store state and actions -/

/-- The snapshot owned by the store. busySessionIDs is a JS Set of strings
(insertion-ordered, duplicate-free by construction); messages is the
Record from sessionID to the session's cached message list. -/
structure StoreState where
  sessions : List SessionInfo := []
  messages : List (String × List MessageWithParts) := []
  activeSessionID : Option String := none
  activeSession : Option SessionInfo := none
  activeMessages : List MessageWithParts := []
  isLoadingSessions : Bool := false
  isLoadingMessages : Bool := false
  busySessionIDs : List String := []
  lastError : Option String := none
  deriving Repr, DecidableEq

/-- JS Set.add: no-op when present, append otherwise. -/
def addBusy (l : List String) (id : String) : List String :=
  if l.contains id then l else l ++ [id]

/-- JS Set.delete. -/
def removeBusy (l : List String) (id : String) : List String :=
  l.filter (fun x => !(x == id))

/-- String.prototype.trim: strip leading and trailing whitespace. -/
def jsTrim (s : String) : String :=
  ⟨((s.data.dropWhile Char.isWhitespace).reverse.dropWhile Char.isWhitespace).reverse⟩

/-- selectSession: synchronous switch of the active pointer, re-deriving
activeSession and activeMessages from the cached snapshot. -/
def selectSession (s : StoreState) (sessionID : String) : StoreState :=
  { s with
    activeSessionID := some sessionID,
    activeSession := s.sessions.find? (fun item => item.id == sessionID),
    activeMessages := (lookupMap s.messages sessionID).getD [] }

/-- mergeSession action (the session.updated fold). -/
def mergeSession (s : StoreState) (session : SessionInfo) : StoreState :=
  let sessions := mergeSessions s.sessions session
  let isActive := s.activeSessionID == some session.id
  { s with
    sessions := sessions,
    activeSession := if isActive then some session else s.activeSession }

/-- removeSessionState action (the session.deleted fold): drop the session,
its cached messages and its busy flag, and re-point the active session at
the first remaining one when the removed session was active. -/
def removeSessionState (s : StoreState) (sessionID : String) : StoreState :=
  let sessions := removeSession s.sessions sessionID
  let messages := eraseMap s.messages sessionID
  let nextActiveID :=
    if s.activeSessionID == some sessionID then sessions.head?.map (fun x => x.id)
    else s.activeSessionID
  { s with
    sessions := sessions,
    messages := messages,
    activeSessionID := nextActiveID,
    activeSession := nextActiveID.bind (fun id => sessions.find? (fun item => item.id == id)),
    activeMessages :=
      match nextActiveID with
      | some id => (lookupMap messages id).getD []
      | none => [],
    busySessionIDs := removeBusy s.busySessionIDs sessionID }

/-- mergeMessage action (the message.created fold). -/
def mergeMessage (s : StoreState) (message : MessageWithParts) : StoreState :=
  let sessionID := message.info.sessionID
  let merged := mergeMessageList ((lookupMap s.messages sessionID).getD []) message
  { s with
    messages := insertMap s.messages sessionID merged,
    activeMessages :=
      if s.activeSessionID == some sessionID then merged else s.activeMessages }

/-- updateMessageInfo action (the message.updated fold); no-op when the
session has no cached list. -/
def updateMessageInfo (s : StoreState) (info : MessageInfo) : StoreState :=
  match lookupMap s.messages info.sessionID with
  | none => s
  | some existing =>
    let merged := mergeMessageInfoList existing info
    { s with
      messages := insertMap s.messages info.sessionID merged,
      activeMessages :=
        if s.activeSessionID == some info.sessionID then merged else s.activeMessages }

/-- updateMessagePart action (the message.part.updated fold); no-op when the
session has no cached list. -/
def updateMessagePart (s : StoreState) (part : MessagePart) : StoreState :=
  match lookupMap s.messages part.sessionID with
  | none => s
  | some existing =>
    let merged := mergeMessagePartList existing part
    { s with
      messages := insertMap s.messages part.sessionID merged,
      activeMessages :=
        if s.activeSessionID == some part.sessionID then merged else s.activeMessages }

/-- removeMessagePart action (the message.part.removed fold). -/
def removeMessagePart (s : StoreState) (sessionID messageID partID : String) : StoreState :=
  match lookupMap s.messages sessionID with
  | none => s
  | some existing =>
    let merged := removeMessagePartFromList existing messageID partID
    { s with
      messages := insertMap s.messages sessionID merged,
      activeMessages :=
        if s.activeSessionID == some sessionID then merged else s.activeMessages }

/-- removeMessage action (the message.removed fold). -/
def removeMessage (s : StoreState) (sessionID messageID : String) : StoreState :=
  match lookupMap s.messages sessionID with
  | none => s
  | some existing =>
    let merged := removeMessageFromList existing messageID
    { s with
      messages := insertMap s.messages sessionID merged,
      activeMessages :=
        if s.activeSessionID == some sessionID then merged else s.activeMessages }

/-- setBusy action; an empty sessionID is falsy in JS and ignored. -/
def setBusy (s : StoreState) (sessionID : String) (busy : Bool) : StoreState :=
  if sessionID == "" then s
  else
    { s with
      busySessionIDs :=
        if busy then addBusy s.busySessionIDs sessionID
        else removeBusy s.busySessionIDs sessionID }

/-- setLastError action. -/
def setLastError (s : StoreState) (message : Option String) : StoreState :=
  { s with lastError := message }

/-- The event-subscription switch: fold one decoded server event into the
store through its actions. server.connected only delegates a
refreshSessions call (modelled separately as refreshSessionsCall). -/
def handleEvent (s : StoreState) : ServerEvent → StoreState
  | .serverConnected => s
  | .sessionUpdated info => mergeSession s info
  | .sessionDeleted info => removeSessionState s info.id
  | .sessionIdle sessionID => setBusy s sessionID false
  | .sessionError sessionID error =>
    let s1 :=
      match sessionID with
      | some sid => if sid == "" then s else setBusy s sid false
      | none => s
    setLastError s1 (some (sessionErrorText error))
  | .messageCreated info parts => mergeMessage s { info := info, parts := parts }
  | .messageUpdated info => updateMessageInfo s info
  | .messageRemoved sessionID messageID => removeMessage s sessionID messageID
  | .messagePartUpdated part => updateMessagePart s part
  | .messagePartRemoved sessionID messageID partID =>
    removeMessagePart s sessionID messageID partID

/-! ### The asynchronous store actions

Each network-calling action is a function of the snapshot and of the oracle
outcome of its single request: Except.ok carries the server response,
Except.error the rejection. The state transition composes the synchronous
set calls the action performs from start to settlement. -/

/-- refreshSessions: set the loading flag, fetch, and on success store the
list sorted descending by update time, keeping the active session when the
fetched list still contains it and defaulting to the newest otherwise; on
failure record lastError and leave everything else untouched. The loading
flag is cleared in both branches. -/
def refreshSessionsCall (s : StoreState)
    (outcome : Except JsError (List SessionInfo)) : StoreState :=
  let s1 := { s with isLoadingSessions := true }
  match outcome with
  | .ok result =>
    let sorted := stableSort sessionLe result
    let nextActiveID :=
      match s1.activeSessionID with
      | some a => if sorted.any (fun item => item.id == a) then some a
                  else sorted.head?.map (fun x => x.id)
      | none => sorted.head?.map (fun x => x.id)
    { s1 with
      sessions := sorted,
      activeSessionID := nextActiveID,
      activeSession := nextActiveID.bind (fun id => sorted.find? (fun item => item.id == id)),
      activeMessages :=
        match nextActiveID with
        | some id => (lookupMap s1.messages id).getD []
        | none => [],
      isLoadingSessions := false }
  | .error e =>
    { s1 with isLoadingSessions := false, lastError := some e.asString }

/-- loadMessages: fetch the full message list of a session and replace its
cached list wholesale; activeMessages follows only when the target session
is still the active one. -/
def loadMessagesCall (s : StoreState) (sessionID : String)
    (outcome : Except JsError (List MessageWithParts)) : StoreState :=
  let s1 := { s with isLoadingMessages := true }
  match outcome with
  | .ok result =>
    { s1 with
      messages := insertMap s1.messages sessionID result,
      activeMessages :=
        if s1.activeSessionID == some sessionID then result else s1.activeMessages,
      isLoadingMessages := false }
  | .error e =>
    { s1 with isLoadingMessages := false, lastError := some e.asString }

/-- createSession: the request is awaited without a catch, so a rejection
propagates to the caller with no state change; on success the session is
merged and made active. -/
def createSessionCall (s : StoreState)
    (outcome : Except JsError SessionInfo) : StoreState :=
  match outcome with
  | .error _ => s
  | .ok session =>
    { s with
      sessions := mergeSessions s.sessions session,
      activeSessionID := some session.id,
      activeSession := some session,
      activeMessages := (lookupMap s.messages session.id).getD [] }

/-- deleteSession: the request is awaited without a catch, so a rejection
propagates with no state change; on success the local cleanup is the same
state update as removeSessionState. -/
def deleteSessionCall (s : StoreState) (sessionID : String)
    (outcome : Except JsError Unit) : StoreState :=
  match outcome with
  | .error _ => s
  | .ok _ => removeSessionState s sessionID

/-- The try block of prompt: on success merge the returned message into the
session's list; on failure record a human-readable lastError (the catch
swallows the error: nothing propagates to the caller). -/
def promptTry (s : StoreState) (sessionID : String)
    (outcome : Except JsError MessageWithParts) : StoreState :=
  match outcome with
  | .ok response =>
    let merged := mergeMessageList ((lookupMap s.messages sessionID).getD []) response
    { s with
      messages := insertMap s.messages sessionID merged,
      activeMessages :=
        if s.activeSessionID == some sessionID then merged else s.activeMessages }
  | .error e =>
    { s with lastError := some (promptErrorMessage e) }

/-- prompt: no-op on blank text; otherwise mark the session busy, run the
request (try/catch in promptTry), and clear the busy flag in a finally
step on both paths. The function is total: no outcome throws out of it. -/
def promptCall (s : StoreState) (sessionID : String) (text : String)
    (outcome : Except JsError MessageWithParts) : StoreState :=
  if jsTrim text == "" then s
  else
    let s1 := setBusy s sessionID true
    let s2 := promptTry s1 sessionID outcome
    setBusy s2 sessionID false

/-- The activeMessages view the spec requires: messages[activeSessionID],
or empty when no session is active. -/
def derivedActiveMessages (s : StoreState) : List MessageWithParts :=
  match s.activeSessionID with
  | some id => (lookupMap s.messages id).getD []
  | none => []

/-! ### The file store of the local context (open tabs) -/

/-- The per-path node cache of the file store: tree metadata plus lazily
loaded content and view state. -/
structure LocalFile where
  path : String
  loaded : Bool := false
  pinned : Bool := false
  expanded : Bool := false
  content : Option String := none
  view : Option String := none
  deriving Repr, DecidableEq

/-- The file-store slice close manipulates: the node record, the ordered
open-tab list, and the active tab. -/
structure FileState where
  node : List (String × LocalFile) := []
  opened : List String := []
  active : Option String := none
  deriving Repr, DecidableEq

/-- resetNode: drop the node's cached entry so the next open reloads it. -/
def resetNode (s : FileState) (path : String) : FileState :=
  { s with node := eraseMap s.node path }

/-- close(path): filter the path out of the open-tab list; then, if it was
active, re-read store.opened — which the synchronous setStore has already
updated, so findIndex is evaluated on the list without the closed path —
and activate the entry at Math.max(0, index - 1); finally reset the node. -/
def closeFile (s : FileState) (path : String) : FileState :=
  let s1 := { s with opened := s.opened.filter (fun x => !(x == path)) }
  let s2 :=
    if s1.active == some path then
      let index : Int :=
        match s1.opened.findIdx? (fun f => f == path) with
        | some i => (i : Int)
        | none => -1
      let previous := s1.opened[(max 0 (index - 1)).toNat]?
      { s1 with active := previous }
    else s1
  resetNode s2 path

/-! ### readConfig of the opencode client service -/

/-- The persisted client configuration. -/
structure OpencodeConfig where
  baseUrl : String
  directory : Option String := none
  deriving Repr, DecidableEq

/-- The fallback base URL (import.meta.env.VITE_OPENCODE_URL is unset in the
packaged app, leaving the literal default). -/
def DEFAULT_BASE_URL : String := "http://127.0.0.1:4096"

/-- The content of the persisted config slot as readConfig's control flow
discriminates it: absent (or empty, which is falsy), present but not valid
JSON (JSON.parse throws), or a parsed JSON value. -/
inductive SlotContent where
  | absent
  | unparseable (raw : String)
  | parsed (value : Json)

/-- Field access parsed.key on a JS value: defined on objects only
(string-keyed reads of arrays and primitives yield undefined). -/
def Json.getField : Json → String → Option Json
  | .obj fields, key => lookupMap fields key
  | _, _ => none

/-- readConfig: total over every slot content. Absent or unparseable slots
take the default; a parsed non-object (typeof check) or null throws into
the catch, which returns the default; an object contributes baseUrl and
directory only when the stored fields are strings. -/
def readConfig : SlotContent → OpencodeConfig
  | .absent => { baseUrl := DEFAULT_BASE_URL }
  | .unparseable _ => { baseUrl := DEFAULT_BASE_URL }
  | .parsed value =>
    match value with
    | .obj fields =>
      { baseUrl :=
          match lookupMap fields "baseUrl" with
          | some (.str s) => s
          | _ => DEFAULT_BASE_URL,
        directory :=
          match lookupMap fields "directory" with
          | some (.str s) => some s
          | _ => none }
    | .arr _ =>
      { baseUrl := DEFAULT_BASE_URL }
    | _ =>
      { baseUrl := DEFAULT_BASE_URL }

/-- The baseUrl the slot stores, read off the spec's words: the baseUrl
field of the persisted object when that field is a string. -/
def storedBaseUrl : SlotContent → Option String
  | .parsed (.obj fields) =>
    match lookupMap fields "baseUrl" with
    | some (.str s) => some s
    | _ => none
  | _ => none

/-- The directory the slot stores, read off the spec's words. -/
def storedDirectory : SlotContent → Option String
  | .parsed (.obj fields) =>
    match lookupMap fields "directory" with
    | some (.str s) => some s
    | _ => none
  | _ => none

/-! ### Facts about the merge helpers -/

theorem msgLe_trans (a b c : MessageWithParts) (hab : msgLe a b = true)
    (hbc : msgLe b c = true) : msgLe a c = true := by
  simp only [msgLe, decide_eq_true_eq] at *
  omega

theorem msgLe_total (a b : MessageWithParts) : msgLe a b = true ∨ msgLe b a = true := by
  simp only [msgLe, decide_eq_true_eq]
  omega

theorem sessionLe_trans (a b c : SessionInfo) (hab : sessionLe a b = true)
    (hbc : sessionLe b c = true) : sessionLe a c = true := by
  simp only [sessionLe, decide_eq_true_eq] at *
  omega

theorem sessionLe_total (a b : SessionInfo) : sessionLe a b = true ∨ sessionLe b a = true := by
  simp only [sessionLe, decide_eq_true_eq]
  omega

theorem mergeMessageList_eq (list : List MessageWithParts) (next : MessageWithParts) :
    mergeMessageList list next =
      stableSort msgLe
        (replaceOrAppend (fun item => item.info.id == next.info.id) next list) := by
  unfold mergeMessageList
  rw [← upsert_eq_replaceOrAppend]
  cases h : list.findIdx? (fun item => item.info.id == next.info.id) <;> simp [h]

theorem mergeSessions_eq (list : List SessionInfo) (next : SessionInfo) :
    mergeSessions list next =
      stableSort sessionLe
        (replaceOrAppend (fun item => item.id == next.id) next list) := by
  unfold mergeSessions
  rw [← upsert_eq_replaceOrAppend]
  cases h : list.findIdx? (fun item => item.id == next.id) <;> simp [h]

theorem mergeMessageList_perm_erase (list : List MessageWithParts)
    (next : MessageWithParts) :
    (mergeMessageList list next).Perm
      (next :: list.eraseP (fun m => m.info.id == next.info.id)) := by
  rw [mergeMessageList_eq]
  exact (stableSort_perm _ _).trans (replaceOrAppend_perm _ _ _)

theorem mergeMessageList_sorted (list : List MessageWithParts)
    (next : MessageWithParts) :
    (mergeMessageList list next).Pairwise
      (fun a b => a.info.time.created ≤ b.info.time.created) := by
  rw [mergeMessageList_eq]
  refine (sorted_stableSort msgLe msgLe_trans msgLe_total _).imp ?_
  intro a b h
  simpa [msgLe, decide_eq_true_eq] using h

/-- C1: folding a message.created event upserts the message (info and
parts together) into the list of its session — as a permutation of the
new message consed onto the old list with the first same-id entry erased
— and the resulting session list is sorted ascending by time.created. -/
theorem messageCreated_upserts_and_sorts (s : StoreState) (info : MessageInfo)
    (parts : List MessagePart) :
    (((lookupMap (handleEvent s (.messageCreated info parts)).messages
        info.sessionID).getD []).Perm
      ({ info := info, parts := parts } ::
        ((lookupMap s.messages info.sessionID).getD []).eraseP
          (fun m => m.info.id == info.id)))
    ∧ ((lookupMap (handleEvent s (.messageCreated info parts)).messages
        info.sessionID).getD []).Pairwise
        (fun a b => a.info.time.created ≤ b.info.time.created) := by
  have hlook :
      lookupMap (handleEvent s (.messageCreated info parts)).messages info.sessionID =
        some (mergeMessageList ((lookupMap s.messages info.sessionID).getD [])
          { info := info, parts := parts }) := by
    simp only [handleEvent, mergeMessage]
    exact lookupMap_insertMap_self _ _ _
  rw [hlook]
  refine ⟨?_, ?_⟩
  · simpa using mergeMessageList_perm_erase
      ((lookupMap s.messages info.sessionID).getD []) { info := info, parts := parts }
  · simpa using mergeMessageList_sorted
      ((lookupMap s.messages info.sessionID).getD []) { info := info, parts := parts }

/-! ### C9: closing a tab (code-bug evidence) -/

/-- Three open tabs a, b, c with c active. -/
def c9State : FileState :=
  { node := [("a", { path := "a" }), ("b", { path := "b" }), ("c", { path := "c" })],
    opened := ["a", "b", "c"],
    active := some "c" }

/-- C9: closing the active tab "c" does remove it from the open list and
discard its cached node, but it activates "a" (index 0), not the left
neighbor "b" the spec describes: findIndex runs on the already-filtered
list, always returns -1, and Math.max(0, -2) degenerates to index 0. -/
theorem close_activates_first_tab_not_left_neighbor :
    (closeFile c9State "c").opened = ["a", "b"]
    ∧ (closeFile c9State "c").active = some "a"
    ∧ (closeFile c9State "c").active ≠ some "b"
    ∧ lookupMap (closeFile c9State "c").node "c" = none := by
  refine ⟨by decide, by decide, by decide, by decide⟩

/-! ### C10: totality of readConfig -/

/-- C10: readConfig is total over every slot content and always yields the
stored baseUrl when it is a string (the default otherwise) and the stored
directory when it is a string (undefined otherwise). -/
theorem readConfig_total_defaulted (slot : SlotContent) :
    (readConfig slot).baseUrl = (storedBaseUrl slot).getD DEFAULT_BASE_URL
    ∧ (readConfig slot).directory = storedDirectory slot := by
  cases slot with
  | absent => simp [readConfig, storedBaseUrl, storedDirectory]
  | unparseable raw => simp [readConfig, storedBaseUrl, storedDirectory]
  | parsed value =>
    cases value with
    | obj fields =>
      refine ⟨?_, ?_⟩
      · simp only [readConfig, storedBaseUrl]
        cases h : lookupMap fields "baseUrl" with
        | none => simp
        | some j => cases j <;> simp
      · simp only [readConfig, storedDirectory]
    | null => simp [readConfig, storedBaseUrl, storedDirectory]
    | bool b => simp [readConfig, storedBaseUrl, storedDirectory]
    | num n => simp [readConfig, storedBaseUrl, storedDirectory]
    | str s => simp [readConfig, storedBaseUrl, storedDirectory]
    | arr items => simp [readConfig, storedBaseUrl, storedDirectory]

/-! ### C2: part events for unknown messages are dropped -/

/-- C2: a message.part.updated event whose part's messageID occurs in no
session's cached message list leaves the snapshot unchanged (given the
activeMessages view consistency every reachable snapshot has): if the
part's session has no cache entry the fold returns the state as is, and if
it has one the merge finds no owner and writes the entry back unchanged,
creating no empty entry for the part's sessionID. -/
theorem messagePartUpdated_unknown_is_noop (s : StoreState) (part : MessagePart)
    (hInv : s.activeMessages = derivedActiveMessages s)
    (hUnknown : ∀ kv ∈ s.messages, ∀ m ∈ kv.2, m.info.id ≠ part.messageID) :
    handleEvent s (.messagePartUpdated part) = s := by
  show updateMessagePart s part = s
  cases h : lookupMap s.messages part.sessionID with
  | none => simp [updateMessagePart, h]
  | some existing =>
    have hmem := lookupMap_mem _ _ _ h
    have hnone : existing.findIdx? (fun item => item.info.id == part.messageID) = none := by
      rw [List.findIdx?_eq_none_iff]
      intro x hx
      simpa using hUnknown _ hmem x hx
    have hmerged : mergeMessagePartList existing part = existing := by
      unfold mergeMessagePartList
      rw [hnone]
    have hins : insertMap s.messages part.sessionID existing = s.messages :=
      insertMap_lookupMap_self _ _ _ h
    simp only [updateMessagePart, h, hmerged, hins]
    cases hact : s.activeSessionID == some part.sessionID with
    | false => simp
    | true =>
      have ha : s.activeSessionID = some part.sessionID := by
        cases hA : s.activeSessionID with
        | none => rw [hA] at hact; simp at hact
        | some a =>
          rw [hA] at hact
          simp at hact
          rw [hact]
      have hcurr : s.activeMessages = existing := by
        rw [hInv, derivedActiveMessages, ha]
        simp [h]
      rw [← hcurr]
      simp

/-! ### C4: prompt failure handling -/

theorem removeBusy_addBusy (l : List String) (id : String) :
    removeBusy (addBusy l id) id = removeBusy l id := by
  unfold addBusy
  cases h : l.contains id with
  | true => simp
  | false =>
    simp only [Bool.false_eq_true, if_false, removeBusy, List.filter_append]
    simp

theorem removeBusy_of_not_mem (l : List String) (id : String) (h : id ∉ l) :
    removeBusy l id = l := by
  unfold removeBusy
  rw [List.filter_eq_self]
  intro a ha
  simp
  intro hc
  exact absurd (hc ▸ ha) h

/-- C4 (amended): when the send-prompt request fails on non-blank text, the
prompt action terminates normally (the model is a total function: the
catch swallows the rejection), records the human-readable message derived
from the thrown value, and the finally step deletes the sessionID from the
busy set — so the busy set equals the pre-call set with the sessionID
removed, and equals the pre-call set exactly when the session was not
already busy before the call. -/
theorem prompt_failure_recovers (s : StoreState) (sessionID text : String) (e : JsError)
    (hText : ¬ jsTrim text = "") :
    (promptCall s sessionID text (.error e)).lastError = some (promptErrorMessage e)
    ∧ (sessionID ≠ "" →
        (promptCall s sessionID text (.error e)).busySessionIDs =
          removeBusy s.busySessionIDs sessionID)
    ∧ (sessionID ∉ s.busySessionIDs →
        (promptCall s sessionID text (.error e)).busySessionIDs = s.busySessionIDs) := by
  have htb : (jsTrim text == "") = false := by
    simp [hText]
  cases hid : sessionID == "" with
  | true =>
    have : sessionID = "" := by simpa using hid
    subst this
    refine ⟨?_, ?_, ?_⟩
    · simp [promptCall, htb, setBusy, promptTry]
    · intro hc; exact absurd rfl hc
    · intro _; simp [promptCall, htb, setBusy, promptTry]
  | false =>
    refine ⟨?_, ?_, ?_⟩
    · simp [promptCall, htb, setBusy, hid, promptTry]
    · intro _
      simp [promptCall, htb, setBusy, hid, promptTry]
      exact removeBusy_addBusy _ _
    · intro hmem
      simp [promptCall, htb, setBusy, hid, promptTry]
      rw [removeBusy_addBusy]
      exact removeBusy_of_not_mem _ _ hmem

/-- C4 counterexample: with session s1 already busy before the call, a
failing prompt for s1 ends with an empty busy set, not the original one:
the claimed equality of the busy sets before and after does not hold for
every snapshot. -/
theorem prompt_failure_busy_counterexample :
    ({ busySessionIDs := ["s1"] } : StoreState).busySessionIDs = ["s1"]
    ∧ (promptCall { busySessionIDs := ["s1"] } "s1" "hi"
        (.error (.jsError "network"))).busySessionIDs = []
    ∧ (promptCall { busySessionIDs := ["s1"] } "s1" "hi"
        (.error (.jsError "network"))).busySessionIDs ≠
        ({ busySessionIDs := ["s1"] } : StoreState).busySessionIDs := by
  refine ⟨by decide, by decide, by decide⟩

/-! ### C6: idempotence of the session.updated merge -/

theorem mem_replaceOrAppend_session (l : List SessionInfo) (s x : SessionInfo)
    (hids : l.Pairwise (fun a b => a.id ≠ b.id))
    (hx : x ∈ replaceOrAppend (fun item => item.id == s.id) s l) :
    x = s ∨ (x ∈ l ∧ x.id ≠ s.id) := by
  induction l with
  | nil =>
    simp [replaceOrAppend] at hx
    exact Or.inl hx
  | cons y ys ih =>
    rcases List.pairwise_cons.mp hids with ⟨hy, hys⟩
    by_cases hpy : y.id = s.id
    · have hb : (y.id == s.id) = true := by simp [hpy]
      simp only [replaceOrAppend, hb, if_true] at hx
      rcases List.mem_cons.mp hx with rfl | hx'
      · exact Or.inl rfl
      · right
        refine ⟨List.mem_cons_of_mem _ hx', ?_⟩
        have hne := hy x hx'
        rw [← hpy]
        exact fun hc => hne hc.symm
    · have hb : (y.id == s.id) = false := by simp [hpy]
      simp only [replaceOrAppend, hb, Bool.false_eq_true, if_false] at hx
      rcases List.mem_cons.mp hx with rfl | hx'
      · exact Or.inr ⟨List.mem_cons_self _ _, hpy⟩
      · rcases ih hys hx' with hh | ⟨hmem, hne⟩
        · exact Or.inl hh
        · exact Or.inr ⟨List.mem_cons_of_mem _ hmem, hne⟩

/-- C6 (amended): on any session list whose ids are pairwise distinct — the
shape every store-maintained list has — folding the same session.updated
payload twice gives the same list as folding it once. -/
theorem mergeSessions_def (list : List SessionInfo) (next : SessionInfo) :
    mergeSessions list next =
      match list.findIdx? (fun item => item.id == next.id) with
      | some index => stableSort sessionLe (list.set index next)
      | none => stableSort sessionLe (list ++ [next]) := rfl

theorem sessionUpdated_merge_idempotent (l : List SessionInfo) (s : SessionInfo)
    (hids : l.Pairwise (fun a b => a.id ≠ b.id)) :
    mergeSessions (mergeSessions l s) s = mergeSessions l s := by
  have hself : (fun item => item.id == s.id) s = true := by simp
  have hl1 : mergeSessions l s =
      stableSort sessionLe (replaceOrAppend (fun item => item.id == s.id) s l) :=
    mergeSessions_eq l s
  have hperm : (mergeSessions l s).Perm (replaceOrAppend (fun item => item.id == s.id) s l) := by
    rw [hl1]; exact stableSort_perm _ _
  have hsorted : (mergeSessions l s).Pairwise (fun a b => sessionLe a b = true) := by
    rw [hl1]; exact sorted_stableSort sessionLe sessionLe_trans sessionLe_total _
  have hmem_s : s ∈ mergeSessions l s :=
    hperm.mem_iff.mpr (self_mem_replaceOrAppend _ s l)
  have huniq : ∀ x ∈ mergeSessions l s, x.id = s.id → x = s := by
    intro x hx hxid
    rcases mem_replaceOrAppend_session l s x hids (hperm.mem_iff.mp hx) with hh | ⟨_, hne⟩
    · exact hh
    · exact absurd hxid hne
  have hfind : (mergeSessions l s).findIdx? (fun item => item.id == s.id) ≠ none :=
    findIdx?_isSome_of_mem _ _ s hmem_s hself
  cases hj : (mergeSessions l s).findIdx? (fun item => item.id == s.id) with
  | none => exact absurd hj hfind
  | some j =>
    obtain ⟨x, hget, hpx⟩ := findIdx?_some_spec _ _ j hj
    have hxid : x.id = s.id := by simpa using hpx
    have hxs : x = s := huniq x (List.getElem?_mem hget) hxid
    subst hxs
    have hset : (mergeSessions l x).set j x = mergeSessions l x :=
      set_getElem?_self _ _ _ hget
    rw [mergeSessions_def (mergeSessions l x) x, hj]
    show stableSort sessionLe ((mergeSessions l x).set j x) = mergeSessions l x
    rw [hset]
    exact stableSort_of_sorted sessionLe _ hsorted

/-- C6 counterexample input: two stale entries sharing the id "a". -/
def c6a1 : SessionInfo := { id := "a", time := { created := 0, updated := 1 } }

/-- C6 counterexample input: the newer duplicate of id "a". -/
def c6a2 : SessionInfo := { id := "a", time := { created := 0, updated := 5 } }

/-- C6 counterexample input: the session.updated payload for id "a". -/
def c6s : SessionInfo := { id := "a", time := { created := 0, updated := 3 } }

/-- C6 counterexample: on a list holding two entries with the same id, the
merge replaces only the first match, so folding the same payload twice
differs from folding it once — the claim's unrestricted "for every list l"
fails. -/
theorem sessionUpdated_merge_not_idempotent_counterexample :
    mergeSessions (mergeSessions [c6a1, c6a2] c6s) c6s ≠ mergeSessions [c6a1, c6a2] c6s := by
  decide

/-! ### C7: the session.deleted fold cleans up everywhere -/

/-- C7: folding session.deleted removes the session from the session list
(and nothing else), drops the session's cached message collection, removes
the id from the busy set, and — whenever the busy set was a subset of the
known session ids — keeps it one afterwards. -/
theorem sessionDeleted_removes_everywhere (s : StoreState) (info : SessionInfo)
    (hbusy : ∀ b ∈ s.busySessionIDs, ∃ x ∈ s.sessions, x.id = b) :
    (∀ x ∈ (handleEvent s (.sessionDeleted info)).sessions, x.id ≠ info.id)
    ∧ (∀ x ∈ s.sessions, x.id ≠ info.id → x ∈ (handleEvent s (.sessionDeleted info)).sessions)
    ∧ lookupMap (handleEvent s (.sessionDeleted info)).messages info.id = none
    ∧ info.id ∉ (handleEvent s (.sessionDeleted info)).busySessionIDs
    ∧ (∀ b ∈ (handleEvent s (.sessionDeleted info)).busySessionIDs,
        ∃ x ∈ (handleEvent s (.sessionDeleted info)).sessions, x.id = b) := by
  refine ⟨?_, ?_, ?_, ?_, ?_⟩
  · intro x hx
    simp only [handleEvent, removeSessionState, removeSession] at hx
    have := (List.mem_filter.mp hx).2
    simpa using this
  · intro x hx hne
    simp only [handleEvent, removeSessionState, removeSession]
    exact List.mem_filter.mpr ⟨hx, by simpa using hne⟩
  · simp only [handleEvent, removeSessionState]
    exact lookupMap_eraseMap_self _ _
  · intro hmem
    simp only [handleEvent, removeSessionState, removeBusy] at hmem
    have := (List.mem_filter.mp hmem).2
    simp at this
  · intro b hb
    simp only [handleEvent, removeSessionState, removeBusy] at hb
    obtain ⟨hbmem, hbne⟩ := List.mem_filter.mp hb
    have hbne' : b ≠ info.id := by simpa using hbne
    obtain ⟨x, hxmem, hxid⟩ := hbusy b hbmem
    refine ⟨x, ?_, hxid⟩
    simp only [handleEvent, removeSessionState, removeSession]
    refine List.mem_filter.mpr ⟨hxmem, ?_⟩
    simp [hxid, hbne']

/-! ### C8: refreshSessions -/

/-- C8: on success refreshSessions stores exactly the fetched sessions
(as a permutation), sorted descending by time.updated, keeps the active
session when its id is still fetched and otherwise activates the head of
the sorted list; on failure it records the error and leaves sessions,
active state, messages and the view untouched; the loading flag ends false
on both paths. -/
theorem refreshSessions_spec (s : StoreState) (result : List SessionInfo) (e : JsError) :
    (refreshSessionsCall s (.ok result)).sessions.Perm result
    ∧ (refreshSessionsCall s (.ok result)).sessions.Pairwise
        (fun a b => b.time.updated ≤ a.time.updated)
    ∧ (refreshSessionsCall s (.ok result)).isLoadingSessions = false
    ∧ (∀ a, s.activeSessionID = some a → (∃ x ∈ result, x.id = a) →
        (refreshSessionsCall s (.ok result)).activeSessionID = some a)
    ∧ ((∀ x ∈ result, s.activeSessionID ≠ some x.id) →
        (refreshSessionsCall s (.ok result)).activeSessionID =
          (stableSort sessionLe result).head?.map (fun x => x.id))
    ∧ (refreshSessionsCall s (.error e)).sessions = s.sessions
    ∧ (refreshSessionsCall s (.error e)).activeSessionID = s.activeSessionID
    ∧ (refreshSessionsCall s (.error e)).activeSession = s.activeSession
    ∧ (refreshSessionsCall s (.error e)).messages = s.messages
    ∧ (refreshSessionsCall s (.error e)).activeMessages = s.activeMessages
    ∧ (refreshSessionsCall s (.error e)).lastError = some e.asString
    ∧ (refreshSessionsCall s (.error e)).isLoadingSessions = false := by
  refine ⟨?_, ?_, ?_, ?_, ?_, rfl, rfl, rfl, rfl, rfl, rfl, rfl⟩
  · simpa [refreshSessionsCall] using stableSort_perm sessionLe result
  · refine ((sorted_stableSort sessionLe sessionLe_trans sessionLe_total result).imp ?_)
    intro a b h
    simpa [sessionLe, decide_eq_true_eq] using h
  · rfl
  · intro a ha hex
    have hmem : ∃ x ∈ stableSort sessionLe result, x.id = a := by
      obtain ⟨x, hx, hxa⟩ := hex
      exact ⟨x, (stableSort_perm sessionLe result).mem_iff.mpr hx, hxa⟩
    have hany : (stableSort sessionLe result).any (fun item => item.id == a) = true := by
      rw [List.any_eq_true]
      obtain ⟨x, hx, hxa⟩ := hmem
      exact ⟨x, hx, by simp [hxa]⟩
    simp [refreshSessionsCall, ha, hany]
  · intro hnone
    simp only [refreshSessionsCall]
    cases ha : s.activeSessionID with
    | none => simp
    | some a =>
      have hany : (stableSort sessionLe result).any (fun item => item.id == a) = false := by
        rw [Bool.eq_false_iff]
        intro hc
        rw [List.any_eq_true] at hc
        obtain ⟨x, hx, hxa⟩ := hc
        have hx' : x ∈ result := (stableSort_perm sessionLe result).mem_iff.mp hx
        have : x.id = a := by simpa using hxa
        exact hnone x hx' (by rw [ha, this])
      simp [ha, hany]

/-! ### C5: order (in)dependence of message.created folds -/

theorem mergeMessageList_perm_append (l : List MessageWithParts)
    (next : MessageWithParts)
    (h : ∀ m ∈ l, m.info.id ≠ next.info.id) :
    (mergeMessageList l next).Perm (l ++ [next]) := by
  have herase : l.eraseP (fun m => m.info.id == next.info.id) = l :=
    List.eraseP_of_forall_not (by intro a ha; simpa using h a ha)
  refine (mergeMessageList_perm_erase l next).trans ?_
  rw [herase]
  exact @List.perm_append_comm _ [next] l

theorem foldl_mergeMessageList_perm :
    ∀ (es l : List MessageWithParts),
      (l ++ es).Pairwise (fun a b => a.info.id ≠ b.info.id) →
      (es.foldl mergeMessageList l).Perm (l ++ es) := by
  intro es
  induction es with
  | nil => intro l h; simp
  | cons e rest ih =>
    intro l h
    have hfresh : ∀ m ∈ l, m.info.id ≠ e.info.id := by
      rw [List.pairwise_append] at h
      intro m hm
      exact h.2.2 m hm e (List.mem_cons_self _ _)
    have hstep : (mergeMessageList l e).Perm (l ++ [e]) :=
      mergeMessageList_perm_append l e hfresh
    have hpair : ((mergeMessageList l e) ++ rest).Pairwise
        (fun a b => a.info.id ≠ b.info.id) := by
      have hre : ((l ++ [e]) ++ rest).Perm ((mergeMessageList l e) ++ rest) :=
        (hstep.symm).append_right rest
      have hsrc : ((l ++ [e]) ++ rest).Pairwise (fun a b => a.info.id ≠ b.info.id) := by
        simpa [List.append_assoc] using h
      exact hsrc.perm hre (fun hxy => Ne.symm hxy)
    have hres := ih (mergeMessageList l e) hpair
    have hchain : ((mergeMessageList l e) ++ rest).Perm (l ++ e :: rest) := by
      have := hstep.append_right rest
      simpa [List.append_assoc] using this
    simpa using hres.trans hchain

theorem foldl_mergeMessageList_sorted (es l : List MessageWithParts)
    (h : l.Pairwise (fun a b => a.info.time.created ≤ b.info.time.created)) :
    (es.foldl mergeMessageList l).Pairwise
      (fun a b => a.info.time.created ≤ b.info.time.created) := by
  induction es generalizing l with
  | nil => simpa using h
  | cons e rest ih =>
    simp only [List.foldl_cons]
    exact ih (mergeMessageList l e) (mergeMessageList_sorted l e)

/-- C5 (amended): for message.created events carrying pairwise-distinct
message ids and pairwise-distinct created times, folding them in any
delivery order yields the same list, sorted ascending by created time.
(Sortedness needs no hypothesis; sameness additionally needs the distinct
ids, without which a later event for the same id overwrites an earlier
one and the outcome depends on the order.) -/
theorem messageCreated_fold_order_independent (es1 es2 : List MessageWithParts)
    (hperm : es1.Perm es2)
    (hids : es1.Pairwise (fun a b => a.info.id ≠ b.info.id))
    (htimes : es1.Pairwise (fun a b => a.info.time.created ≠ b.info.time.created)) :
    (es1.foldl mergeMessageList []).Pairwise
      (fun a b => a.info.time.created ≤ b.info.time.created)
    ∧ es1.foldl mergeMessageList [] = es2.foldl mergeMessageList [] := by
  have hsym : ∀ {x y : MessageWithParts},
      x.info.id ≠ y.info.id → y.info.id ≠ x.info.id := fun hxy => Ne.symm hxy
  have htsym : ∀ {x y : MessageWithParts},
      x.info.time.created ≠ y.info.time.created →
        y.info.time.created ≠ x.info.time.created := fun hxy => Ne.symm hxy
  have hids2 : es2.Pairwise (fun a b => a.info.id ≠ b.info.id) :=
    hids.perm hperm hsym
  have htimes2 : es2.Pairwise (fun a b => a.info.time.created ≠ b.info.time.created) :=
    htimes.perm hperm htsym
  have hp1 : (es1.foldl mergeMessageList []).Perm es1 := by
    simpa using foldl_mergeMessageList_perm es1 [] (by simpa using hids)
  have hp2 : (es2.foldl mergeMessageList []).Perm es2 := by
    simpa using foldl_mergeMessageList_perm es2 [] (by simpa using hids2)
  have hs1 := foldl_mergeMessageList_sorted es1 [] (by simp)
  have hs2 := foldl_mergeMessageList_sorted es2 [] (by simp)
  refine ⟨hs1, ?_⟩
  have hd1 : (es1.foldl mergeMessageList []).Pairwise
      (fun a b => a.info.time.created ≠ b.info.time.created) :=
    htimes.perm hp1.symm htsym
  have hd2 : (es2.foldl mergeMessageList []).Pairwise
      (fun a b => a.info.time.created ≠ b.info.time.created) :=
    htimes2.perm hp2.symm htsym
  have hlt1 : (es1.foldl mergeMessageList []).Pairwise
      (fun a b => a.info.time.created < b.info.time.created) :=
    (hs1.and hd1).imp (fun h => lt_of_le_of_ne h.1 h.2)
  have hlt2 : (es2.foldl mergeMessageList []).Pairwise
      (fun a b => a.info.time.created < b.info.time.created) :=
    (hs2.and hd2).imp (fun h => lt_of_le_of_ne h.1 h.2)
  have hpp : (es1.foldl mergeMessageList []).Perm (es2.foldl mergeMessageList []) :=
    (hp1.trans hperm).trans hp2.symm
  haveI : IsAntisymm MessageWithParts
      (fun a b => a.info.time.created < b.info.time.created) :=
    ⟨fun a b h1 h2 => absurd h2 (Int.lt_asymm h1)⟩
  exact List.eq_of_perm_of_sorted hpp hlt1 hlt2

/-- C5 counterexample input: message id m1 with created time 1. -/
def c5m1 : MessageWithParts :=
  { info := { id := "m1", sessionID := "s1", time := { created := 1 } }, parts := [] }

/-- C5 counterexample input: the same message id m1 with created time 2. -/
def c5m2 : MessageWithParts :=
  { info := { id := "m1", sessionID := "s1", time := { created := 2 } }, parts := [] }

/-- C5 counterexample: two message.created events with distinct created
times but the same message id fold to different final lists in the two
delivery orders (the later event upserts over the earlier one), refuting
the claim's parenthetical order-independence as stated. -/
theorem messageCreated_fold_order_dependent_counterexample :
    c5m1.info.time.created ≠ c5m2.info.time.created
    ∧ [c5m1, c5m2].Perm [c5m2, c5m1]
    ∧ [c5m1, c5m2].foldl mergeMessageList [] ≠ [c5m2, c5m1].foldl mergeMessageList [] := by
  refine ⟨by decide, List.Perm.swap c5m2 c5m1 [], by decide⟩

/-! ### C3: the activeMessages view never drifts -/

theorem derived_guarded (s : StoreState) (sid : String) (merged : List MessageWithParts)
    (hInv : s.activeMessages = derivedActiveMessages s) :
    (if s.activeSessionID == some sid then merged else s.activeMessages) =
      (match s.activeSessionID with
        | some id => (lookupMap (insertMap s.messages sid merged) id).getD []
        | none => []) := by
  cases ha : s.activeSessionID with
  | none =>
    rw [hInv, derivedActiveMessages, ha]
    simp
  | some a =>
    by_cases hid : a = sid
    · subst hid
      simp [lookupMap_insertMap_self]
    · have hb : ((some a : Option String) == some sid) = false := by simp [hid]
      rw [hInv, derivedActiveMessages, ha]
      simp [hb, lookupMap_insertMap_ne _ _ _ _ hid]

theorem inv_selectSession (s : StoreState) (sessionID : String) :
    (selectSession s sessionID).activeMessages =
      derivedActiveMessages (selectSession s sessionID) := by
  simp [selectSession, derivedActiveMessages]

theorem inv_setBusy (s : StoreState) (sessionID : String) (busy : Bool)
    (hInv : s.activeMessages = derivedActiveMessages s) :
    (setBusy s sessionID busy).activeMessages =
      derivedActiveMessages (setBusy s sessionID busy) := by
  unfold setBusy
  cases h : sessionID == "" with
  | true => simpa using hInv
  | false => simpa [derivedActiveMessages] using hInv

theorem inv_refreshSessionsCall (s : StoreState)
    (outcome : Except JsError (List SessionInfo))
    (hInv : s.activeMessages = derivedActiveMessages s) :
    (refreshSessionsCall s outcome).activeMessages =
      derivedActiveMessages (refreshSessionsCall s outcome) := by
  cases outcome with
  | ok result =>
    simp only [refreshSessionsCall, derivedActiveMessages]
  | error e => simpa [refreshSessionsCall, derivedActiveMessages] using hInv

theorem inv_loadMessagesCall (s : StoreState) (sessionID : String)
    (outcome : Except JsError (List MessageWithParts))
    (hInv : s.activeMessages = derivedActiveMessages s) :
    (loadMessagesCall s sessionID outcome).activeMessages =
      derivedActiveMessages (loadMessagesCall s sessionID outcome) := by
  cases outcome with
  | ok result =>
    simp only [loadMessagesCall, derivedActiveMessages]
    exact derived_guarded s sessionID result hInv
  | error e => simpa [loadMessagesCall, derivedActiveMessages] using hInv

theorem inv_createSessionCall (s : StoreState)
    (outcome : Except JsError SessionInfo)
    (hInv : s.activeMessages = derivedActiveMessages s) :
    (createSessionCall s outcome).activeMessages =
      derivedActiveMessages (createSessionCall s outcome) := by
  cases outcome with
  | ok session => simp [createSessionCall, derivedActiveMessages]
  | error e => simpa [createSessionCall] using hInv

theorem inv_removeSessionState (s : StoreState) (sessionID : String) :
    (removeSessionState s sessionID).activeMessages =
      derivedActiveMessages (removeSessionState s sessionID) := by
  simp only [removeSessionState, derivedActiveMessages]

theorem inv_deleteSessionCall (s : StoreState) (sessionID : String)
    (outcome : Except JsError Unit)
    (hInv : s.activeMessages = derivedActiveMessages s) :
    (deleteSessionCall s sessionID outcome).activeMessages =
      derivedActiveMessages (deleteSessionCall s sessionID outcome) := by
  cases outcome with
  | ok u => exact inv_removeSessionState s sessionID
  | error e => simpa [deleteSessionCall] using hInv

theorem inv_promptCall (s : StoreState) (sessionID text : String)
    (outcome : Except JsError MessageWithParts)
    (hInv : s.activeMessages = derivedActiveMessages s) :
    (promptCall s sessionID text outcome).activeMessages =
      derivedActiveMessages (promptCall s sessionID text outcome) := by
  unfold promptCall
  cases ht : jsTrim text == "" with
  | true => simpa using hInv
  | false =>
    simp only [Bool.false_eq_true, if_false]
    have hInv1 : (setBusy s sessionID true).activeMessages =
        derivedActiveMessages (setBusy s sessionID true) :=
      inv_setBusy s sessionID true hInv
    have hInv2 : (promptTry (setBusy s sessionID true) sessionID outcome).activeMessages =
        derivedActiveMessages (promptTry (setBusy s sessionID true) sessionID outcome) := by
      cases outcome with
      | ok response =>
        simp only [promptTry, derivedActiveMessages]
        exact derived_guarded (setBusy s sessionID true) sessionID _ hInv1
      | error e => simpa [promptTry, derivedActiveMessages] using hInv1
    exact inv_setBusy _ sessionID false hInv2

theorem inv_handleEvent (s : StoreState) (ev : ServerEvent)
    (hInv : s.activeMessages = derivedActiveMessages s) :
    (handleEvent s ev).activeMessages = derivedActiveMessages (handleEvent s ev) := by
  cases ev with
  | serverConnected => exact hInv
  | sessionUpdated info =>
    simpa [handleEvent, mergeSession, derivedActiveMessages] using hInv
  | sessionDeleted info => exact inv_removeSessionState s info.id
  | sessionIdle sessionID => exact inv_setBusy s sessionID false hInv
  | sessionError sessionID error =>
    simp only [handleEvent]
    cases sessionID with
    | none => simpa [setLastError, derivedActiveMessages] using hInv
    | some sid =>
      cases hs : sid == "" with
      | true => simpa [hs, setLastError, derivedActiveMessages] using hInv
      | false =>
        have h1 := inv_setBusy s sid false hInv
        simpa [hs, setLastError, derivedActiveMessages] using h1
  | messageCreated info parts =>
    simp only [handleEvent, mergeMessage, derivedActiveMessages]
    exact derived_guarded s info.sessionID _ hInv
  | messageUpdated info =>
    simp only [handleEvent, updateMessageInfo]
    cases h : lookupMap s.messages info.sessionID with
    | none => exact hInv
    | some existing =>
      simp only [derivedActiveMessages]
      exact derived_guarded s info.sessionID _ hInv
  | messageRemoved sessionID messageID =>
    simp only [handleEvent, removeMessage]
    cases h : lookupMap s.messages sessionID with
    | none => exact hInv
    | some existing =>
      simp only [derivedActiveMessages]
      exact derived_guarded s sessionID _ hInv
  | messagePartUpdated part =>
    simp only [handleEvent, updateMessagePart]
    cases h : lookupMap s.messages part.sessionID with
    | none => exact hInv
    | some existing =>
      simp only [derivedActiveMessages]
      exact derived_guarded s part.sessionID _ hInv
  | messagePartRemoved sessionID messageID partID =>
    simp only [handleEvent, removeMessagePart]
    cases h : lookupMap s.messages sessionID with
    | none => exact hInv
    | some existing =>
      simp only [derivedActiveMessages]
      exact derived_guarded s sessionID _ hInv

/-- C3: after every store operation — selectSession, refreshSessions,
loadMessages, createSession, deleteSession, prompt (each over both request
outcomes) and the fold of any server event — the cached activeMessages
view equals messages[activeSessionID] (empty when no session is active),
whenever the starting snapshot satisfies the same consistency (which the
initial empty snapshot does). -/
theorem store_activeMessages_consistent (s : StoreState)
    (hInv : s.activeMessages = derivedActiveMessages s)
    (sessionID text : String) (ev : ServerEvent)
    (o1 : Except JsError (List SessionInfo))
    (o2 : Except JsError (List MessageWithParts))
    (o3 : Except JsError SessionInfo)
    (o4 : Except JsError Unit)
    (o5 : Except JsError MessageWithParts) :
    ((selectSession s sessionID).activeMessages =
      derivedActiveMessages (selectSession s sessionID))
    ∧ ((refreshSessionsCall s o1).activeMessages =
      derivedActiveMessages (refreshSessionsCall s o1))
    ∧ ((loadMessagesCall s sessionID o2).activeMessages =
      derivedActiveMessages (loadMessagesCall s sessionID o2))
    ∧ ((createSessionCall s o3).activeMessages =
      derivedActiveMessages (createSessionCall s o3))
    ∧ ((deleteSessionCall s sessionID o4).activeMessages =
      derivedActiveMessages (deleteSessionCall s sessionID o4))
    ∧ ((promptCall s sessionID text o5).activeMessages =
      derivedActiveMessages (promptCall s sessionID text o5))
    ∧ ((handleEvent s ev).activeMessages = derivedActiveMessages (handleEvent s ev)) :=
  ⟨inv_selectSession s sessionID,
    inv_refreshSessionsCall s o1 hInv,
    inv_loadMessagesCall s sessionID o2 hInv,
    inv_createSessionCall s o3 hInv,
    inv_deleteSessionCall s sessionID o4 hInv,
    inv_promptCall s sessionID text o5 hInv,
    inv_handleEvent s ev hInv⟩

/-! ### Concrete witnesses -/

/-- A snapshot with one cached message under session s1. -/
def c2Msg : MessageWithParts :=
  { info := { id := "m1", sessionID := "s1", time := { created := 1 } }, parts := [] }

/-- A consistent snapshot caching c2Msg for the active session s1. -/
def c2State : StoreState :=
  { messages := [("s1", [c2Msg])],
    activeSessionID := some "s1",
    activeMessages := [c2Msg] }

/-- A part whose messageID matches no cached message. -/
def c2Part : MessagePart := { id := "p1", messageID := "zz", sessionID := "s1" }

/-- C2 witness: the no-op theorem applied to the concrete snapshot. -/
theorem messagePartUpdated_unknown_is_noop_witness :
    (c2State.activeMessages = derivedActiveMessages c2State)
    ∧ (∀ kv ∈ c2State.messages, ∀ m ∈ kv.2, m.info.id ≠ c2Part.messageID)
    ∧ handleEvent c2State (.messagePartUpdated c2Part) = c2State :=
  ⟨by decide, by decide,
    messagePartUpdated_unknown_is_noop c2State c2Part (by decide) (by decide)⟩

/-- A fetched session used by the C3 witness. -/
def c3Sess : SessionInfo := { id := "s2", time := { created := 1, updated := 2 } }

/-- A prompt-response message used by the C3 witness. -/
def c3Msg : MessageWithParts :=
  { info := { id := "m9", sessionID := "s1", time := { created := 3 } }, parts := [] }

/-- C3 witness: the consistency theorem applied to the initial empty
snapshot with successful request outcomes and a session.idle event. -/
theorem store_activeMessages_consistent_witness :
    (({} : StoreState).activeMessages = derivedActiveMessages {})
    ∧ (((selectSession {} "s1").activeMessages =
        derivedActiveMessages (selectSession {} "s1"))
      ∧ ((refreshSessionsCall {} (.ok [c3Sess])).activeMessages =
        derivedActiveMessages (refreshSessionsCall {} (.ok [c3Sess])))
      ∧ ((loadMessagesCall {} "s1" (.ok [c3Msg])).activeMessages =
        derivedActiveMessages (loadMessagesCall {} "s1" (.ok [c3Msg])))
      ∧ ((createSessionCall {} (.ok c3Sess)).activeMessages =
        derivedActiveMessages (createSessionCall {} (.ok c3Sess)))
      ∧ ((deleteSessionCall {} "s1" (.ok ())).activeMessages =
        derivedActiveMessages (deleteSessionCall {} "s1" (.ok ())))
      ∧ ((promptCall {} "s1" "hi" (.ok c3Msg)).activeMessages =
        derivedActiveMessages (promptCall {} "s1" "hi" (.ok c3Msg)))
      ∧ ((handleEvent {} (.sessionIdle "s1")).activeMessages =
        derivedActiveMessages (handleEvent {} (.sessionIdle "s1")))) :=
  ⟨rfl, store_activeMessages_consistent {} rfl "s1" "hi" (.sessionIdle "s1")
    (.ok [c3Sess]) (.ok [c3Msg]) (.ok c3Sess) (.ok ()) (.ok c3Msg)⟩

/-- C4 witness: the amended failure theorem applied to the empty snapshot;
the session was not busy before, so the busy set is restored exactly. -/
theorem prompt_failure_recovers_witness :
    (¬ jsTrim "hi" = "")
    ∧ (promptCall {} "s2" "hi" (.error (.jsError "boom"))).lastError =
        some (promptErrorMessage (.jsError "boom"))
    ∧ (promptCall {} "s2" "hi" (.error (.jsError "boom"))).busySessionIDs =
        ({} : StoreState).busySessionIDs :=
  ⟨by decide,
    (prompt_failure_recovers {} "s2" "hi" (.jsError "boom") (by decide)).1,
    (prompt_failure_recovers {} "s2" "hi" (.jsError "boom") (by decide)).2.2 (by decide)⟩

/-- C5 witness event with id a1 and the later created time. -/
def c5w1 : MessageWithParts :=
  { info := { id := "a1", sessionID := "s1", time := { created := 2 } }, parts := [] }

/-- C5 witness event with id a2 and the earlier created time. -/
def c5w2 : MessageWithParts :=
  { info := { id := "a2", sessionID := "s1", time := { created := 1 } }, parts := [] }

/-- C5 witness: two events with distinct ids and distinct times folded in
both delivery orders. -/
theorem messageCreated_fold_order_independent_witness :
    ([c5w1, c5w2].Perm [c5w2, c5w1])
    ∧ ([c5w1, c5w2].Pairwise (fun a b => a.info.id ≠ b.info.id))
    ∧ ([c5w1, c5w2].Pairwise (fun a b => a.info.time.created ≠ b.info.time.created))
    ∧ (([c5w1, c5w2].foldl mergeMessageList []).Pairwise
        (fun a b => a.info.time.created ≤ b.info.time.created)
      ∧ [c5w1, c5w2].foldl mergeMessageList [] = [c5w2, c5w1].foldl mergeMessageList []) :=
  ⟨by decide, by decide, by decide,
    messageCreated_fold_order_independent [c5w1, c5w2] [c5w2, c5w1]
      (by decide) (by decide) (by decide)⟩

/-- C6 witness: the idempotence theorem on a duplicate-free list. -/
theorem sessionUpdated_merge_idempotent_witness :
    ([c6a1].Pairwise (fun a b => a.id ≠ b.id))
    ∧ mergeSessions (mergeSessions [c6a1] c6s) c6s = mergeSessions [c6a1] c6s :=
  ⟨by decide, sessionUpdated_merge_idempotent [c6a1] c6s (by decide)⟩

/-- The C7 witness session. -/
def c7Sess : SessionInfo := { id := "s1", time := { created := 0, updated := 4 } }

/-- The C7 witness snapshot: one session, busy, with a cached list. -/
def c7State : StoreState :=
  { sessions := [c7Sess],
    messages := [("s1", [])],
    busySessionIDs := ["s1"] }

/-- C7 witness: folding session.deleted for the only (busy) session. -/
theorem sessionDeleted_removes_everywhere_witness :
    (∀ b ∈ c7State.busySessionIDs, ∃ x ∈ c7State.sessions, x.id = b)
    ∧ ((∀ x ∈ (handleEvent c7State (.sessionDeleted c7Sess)).sessions, x.id ≠ c7Sess.id)
      ∧ (∀ x ∈ c7State.sessions, x.id ≠ c7Sess.id →
          x ∈ (handleEvent c7State (.sessionDeleted c7Sess)).sessions)
      ∧ lookupMap (handleEvent c7State (.sessionDeleted c7Sess)).messages c7Sess.id = none
      ∧ c7Sess.id ∉ (handleEvent c7State (.sessionDeleted c7Sess)).busySessionIDs
      ∧ (∀ b ∈ (handleEvent c7State (.sessionDeleted c7Sess)).busySessionIDs,
          ∃ x ∈ (handleEvent c7State (.sessionDeleted c7Sess)).sessions, x.id = b)) :=
  ⟨by decide, sessionDeleted_removes_everywhere c7State c7Sess (by decide)⟩

/-- The C8 witness fetched session, whose id matches the active one. -/
def c8Sess : SessionInfo := { id := "a", time := { created := 0, updated := 9 } }

/-- The C8 witness snapshot with active session a. -/
def c8State : StoreState := { activeSessionID := some "a" }

/-- C8 witness: a successful refresh keeping the active session, and a
failing refresh leaving state untouched. -/
theorem refreshSessions_spec_witness :
    ((refreshSessionsCall c8State (.ok [c8Sess])).sessions.Perm [c8Sess])
    ∧ ((refreshSessionsCall c8State (.ok [c8Sess])).sessions.Pairwise
        (fun a b => b.time.updated ≤ a.time.updated))
    ∧ ((refreshSessionsCall c8State (.ok [c8Sess])).isLoadingSessions = false)
    ∧ ((refreshSessionsCall c8State (.ok [c8Sess])).activeSessionID = some "a")
    ∧ ((refreshSessionsCall c8State (.error (.jsError "down"))).sessions = c8State.sessions)
    ∧ ((refreshSessionsCall c8State (.error (.jsError "down"))).lastError =
        some (JsError.asString (.jsError "down")))
    ∧ ((refreshSessionsCall c8State (.error (.jsError "down"))).isLoadingSessions = false) := by
  obtain ⟨h1, h2, h3, h4, h5, h6, h7, h8, h9, h10, h11, h12⟩ :=
    refreshSessions_spec c8State [c8Sess] (.jsError "down")
  exact ⟨h1, h2, h3, h4 "a" rfl ⟨c8Sess, by decide, rfl⟩, h6, h11, h12⟩

end OpencodeGui
